import Mathlib

/-!
Verification of the SHA-3 / SHAKE / cSHAKE core of this repository.

The repository ships the public header `include/mbedtls/sha3.h` (the data
model: `mbedtls_sha3_id`, `mbedtls_sha3_family_functions`,
`mbedtls_sha3_context`, and the declarations of the API functions).  The
implementation file is not part of the sources, so the behaviour of the API
functions is modelled from the specification (FIPS 202 sponge over
Keccak-f[1600], SP 800-185 cSHAKE framing, and the state machine and error
contract of the spec).  Machine integers are modelled as `Nat` with
reduction modulo `2 ^ 64` where 64-bit overflow matters; byte values stay
below 256 by construction of the operations.
-/

/-- The single error code of the module, from `sha3.h`:
`MBEDTLS_ERR_SHA3_BAD_INPUT_DATA = -0x0076`. -/
def MBEDTLS_ERR_SHA3_BAD_INPUT_DATA : Int := -0x0076

/-- Family identifiers, numeric values of the C enum `mbedtls_sha3_id`
(`MBEDTLS_SHA3_NONE = 0` through `MBEDTLS_SHA3_CSHAKE256 = 8`); an id is
modelled as a `Nat` so that out-of-range values are expressible. -/
def MBEDTLS_SHA3_NONE : Nat := 0

/-- Enum value of SHA3-224. -/
def MBEDTLS_SHA3_224 : Nat := 1

/-- Enum value of SHA3-256. -/
def MBEDTLS_SHA3_256 : Nat := 2

/-- Enum value of SHA3-384. -/
def MBEDTLS_SHA3_384 : Nat := 3

/-- Enum value of SHA3-512. -/
def MBEDTLS_SHA3_512 : Nat := 4

/-- Enum value of SHAKE128. -/
def MBEDTLS_SHA3_SHAKE128 : Nat := 5

/-- Enum value of SHAKE256. -/
def MBEDTLS_SHA3_SHAKE256 : Nat := 6

/-- Enum value of cSHAKE128. -/
def MBEDTLS_SHA3_CSHAKE128 : Nat := 7

/-- Enum value of cSHAKE256. -/
def MBEDTLS_SHA3_CSHAKE256 : Nat := 8

/-- Bitwise complement on a 64-bit lane modelled as `Nat`. -/
def not64 (x : Nat) : Nat := x ^^^ (2 ^ 64 - 1)

/-- Left rotation of a 64-bit lane by `n` (0 ≤ n < 64) bits. -/
def rotl64 (x n : Nat) : Nat := ((x <<< n) ||| (x >>> (64 - n))) % 2 ^ 64

/-- Lane `A[x,y]` of a Keccak state stored as a list of 25 lanes,
index `x + 5 * y` (FIPS 202 ordering). -/
def lane (s : List Nat) (x y : Nat) : Nat := s.getD (x + 5 * y) 0

/-- Modelled from the spec: the θ step of Keccak-f[1600]
(`C[x] = ⊕_y A[x,y]`, `D[x] = C[x-1] ⊕ rotl64(C[x+1],1)`, `A[x,y] ⊕= D[x]`);
the implementation file carrying `keccak_f1600` is not among the sources. -/
def theta (s : List Nat) : List Nat :=
  (List.range 25).map (fun i =>
    let colC : Nat → Nat := fun t =>
      lane s t 0 ^^^ lane s t 1 ^^^ lane s t 2 ^^^ lane s t 3 ^^^ lane s t 4
    s.getD i 0 ^^^ (colC ((i % 5 + 4) % 5) ^^^ rotl64 (colC ((i % 5 + 1) % 5)) 1))

/-- The FIPS 202 ρ rotation offsets, indexed `x + 5 * y`. -/
def rhoOffsets : List Nat :=
  [0, 1, 62, 28, 27]
    ++ [36, 44, 6, 55, 20]
    ++ [3, 10, 43, 25, 39]
    ++ [41, 45, 15, 21, 8]
    ++ [18, 2, 61, 56, 14]

/-- Modelled from the spec: the combined ρ and π steps
(`B[y, (2x+3y) mod 5] = rotl64(A[x,y], ρ[x,y])`); position `(X,Y)` of the
result therefore comes from `(x,y) = ((X + 3Y) mod 5, X)`. -/
def rhoPi (s : List Nat) : List Nat :=
  (List.range 25).map (fun i =>
    let bx := i % 5
    let by_ := i / 5
    let x := (bx + 3 * by_) % 5
    let y := bx
    rotl64 (lane s x y) (rhoOffsets.getD (x + 5 * y) 0))

/-- Modelled from the spec: the χ step
(`A[x,y] = B[x,y] ⊕ ((¬B[x+1,y]) ∧ B[x+2,y])`, indices mod 5). -/
def chi (s : List Nat) : List Nat :=
  (List.range 25).map (fun i =>
    let x := i % 5
    let y := i / 5
    lane s x y ^^^ (not64 (lane s ((x + 1) % 5) y) &&& lane s ((x + 2) % 5) y))

/-- The 24 FIPS 202 round constants of the ι step. -/
def roundConstants : List Nat :=
  [0x0000000000000001, 0x0000000000008082, 0x800000000000808a, 0x8000000080008000,
   0x000000000000808b, 0x0000000080000001, 0x8000000080008081, 0x8000000000008009,
   0x000000000000008a, 0x0000000000000088, 0x0000000080008009, 0x000000008000000a,
   0x000000008000808b, 0x800000000000008b, 0x8000000000008089, 0x8000000000008003,
   0x8000000000008002, 0x8000000000000080, 0x000000000000800a, 0x800000008000000a,
   0x8000000080008081, 0x8000000000008080, 0x0000000080000001, 0x8000000080008008]

/-- Modelled from the spec: the ι step, XOR of a round constant into `A[0,0]`. -/
def iotaStep (rc : Nat) (s : List Nat) : List Nat :=
  match s with
  | [] => []
  | a :: rest => (a ^^^ rc) :: rest

/-- One round of Keccak-f[1600]: θ, ρ, π, χ, ι. -/
def keccakRound (s : List Nat) (rc : Nat) : List Nat := iotaStep rc (chi (rhoPi (theta s)))

/-- Modelled from the spec: the Keccak-f[1600] permutation, 24 rounds over the
25-lane state; pure function of the state. -/
def keccak_f1600 (s : List Nat) : List Nat := roundConstants.foldl keccakRound s

/-- The SHA-3 context structure, mirroring `mbedtls_sha3_context` of
`sha3.h`: 25 64-bit lanes of `state`, the byte offset `index` within the
rate window, the family `id`, the rate `r` in bytes, the mandated digest
length `olen` (0 for XOFs), the domain-separation suffix `xor_byte`, and
the cached block size `max_block_size`. -/
structure mbedtls_sha3_context where
  state : List Nat
  index : Nat
  id : Nat
  r : Nat
  olen : Nat
  xor_byte : Nat
  max_block_size : Nat
deriving DecidableEq, Repr

/-- The all-zero 25-lane state. -/
def zeroState : List Nat := List.replicate 25 0

/-- Modelled from the spec: `mbedtls_sha3_init` zeroes the context
(uninitialized-parameters state: all fields zero, rate 0 sentinel). -/
def mbedtls_sha3_init : mbedtls_sha3_context :=
  ⟨zeroState, 0, 0, 0, 0, 0, 0⟩

/-- Modelled from the spec: `mbedtls_sha3_clone` is a deep value copy. -/
def mbedtls_sha3_clone (src : mbedtls_sha3_context) : mbedtls_sha3_context := src

/-- Modelled from the spec: `mbedtls_sha3_free` zeroizes the context. -/
def mbedtls_sha3_free (_ctx : mbedtls_sha3_context) : mbedtls_sha3_context :=
  mbedtls_sha3_init

/-- One row of the family parameter table, mirroring
`mbedtls_sha3_family_functions` of `sha3.h`: id, rate `r` in bytes,
default digest length `olen`, suffix `xor_byte`. -/
structure mbedtls_sha3_family_functions where
  id : Nat
  r : Nat
  olen : Nat
  xor_byte : Nat
deriving DecidableEq, Repr

/-- Modelled from the spec: the family parameter table of §4.2
(rate in bytes, default digest length, domain-separation suffix; cSHAKE
rows start with the SHAKE suffix `0x1F`). -/
def sha3_families : List mbedtls_sha3_family_functions :=
  [⟨MBEDTLS_SHA3_224, 144, 28, 0x06⟩,
   ⟨MBEDTLS_SHA3_256, 136, 32, 0x06⟩,
   ⟨MBEDTLS_SHA3_384, 104, 48, 0x06⟩,
   ⟨MBEDTLS_SHA3_512, 72, 64, 0x06⟩,
   ⟨MBEDTLS_SHA3_SHAKE128, 168, 0, 0x1F⟩,
   ⟨MBEDTLS_SHA3_SHAKE256, 136, 0, 0x1F⟩,
   ⟨MBEDTLS_SHA3_CSHAKE128, 168, 0, 0x1F⟩,
   ⟨MBEDTLS_SHA3_CSHAKE256, 136, 0, 0x1F⟩]

/-- Lookup in the family table; `none` for an unrecognized id. -/
def sha3_get_family (id : Nat) : Option mbedtls_sha3_family_functions :=
  sha3_families.find? (fun p => p.id == id)

/-- Modelled from the spec: `mbedtls_sha3_starts` looks up the family
parameters, zeroes the state and transitions the context to ABSORBING;
fails with `MBEDTLS_ERR_SHA3_BAD_INPUT_DATA` (context unchanged) on an
unrecognized id.  Returns the C status paired with the updated context. -/
def mbedtls_sha3_starts (ctx : mbedtls_sha3_context) (id : Nat) :
    Int × mbedtls_sha3_context :=
  match sha3_get_family id with
  | none => (MBEDTLS_ERR_SHA3_BAD_INPUT_DATA, ctx)
  | some p => (0, ⟨zeroState, 0, id, p.r, p.olen, p.xor_byte, p.r⟩)

/-- XOR a byte into position `pos` of the 200-byte little-endian view of
the state (lane `pos / 8`, byte offset `pos % 8`). -/
def xorByteIntoState (s : List Nat) (pos : Nat) (b : Nat) : List Nat :=
  s.set (pos / 8) (s.getD (pos / 8) 0 ^^^ (b <<< (8 * (pos % 8))))

/-- Byte at position `pos` of the 200-byte little-endian view of the state. -/
def stateByte (s : List Nat) (pos : Nat) : Nat :=
  (s.getD (pos / 8) 0 >>> (8 * (pos % 8))) % 256

/-- Modelled from the spec: absorb one byte — XOR it at offset `index`,
increment `index`, and permute and reset `index` when the rate boundary is
reached. -/
def absorbByte (ctx : mbedtls_sha3_context) (b : Nat) : mbedtls_sha3_context :=
  let s := xorByteIntoState ctx.state ctx.index b
  if ctx.index + 1 = ctx.r then
    { ctx with state := keccak_f1600 s, index := 0 }
  else
    { ctx with state := s, index := ctx.index + 1 }

/-- Absorb a byte sequence through the byte-granular absorb path. -/
def absorbBytes (ctx : mbedtls_sha3_context) (input : List Nat) : mbedtls_sha3_context :=
  input.foldl absorbByte ctx

/-- Modelled from the spec: `mbedtls_sha3_update` absorbs `input`; it fails
with `MBEDTLS_ERR_SHA3_BAD_INPUT_DATA` (context unchanged) when the context
is not ABSORBING, detected through the rate-0 sentinel of the spec design
notes (INITIAL and FINALIZED contexts have `r = 0`). -/
def mbedtls_sha3_update (ctx : mbedtls_sha3_context) (input : List Nat) :
    Int × mbedtls_sha3_context :=
  if ctx.r = 0 then (MBEDTLS_ERR_SHA3_BAD_INPUT_DATA, ctx)
  else (0, absorbBytes ctx input)

/-- Squeeze `n` output bytes starting at offset `idx` of the rate window,
permuting at each rate boundary. -/
def squeezeAux : Nat → List Nat → Nat → Nat → List Nat
  | 0, _, _, _ => []
  | n + 1, s, r, idx =>
    stateByte s idx ::
      (if idx + 1 = r then squeezeAux n (keccak_f1600 s) r 0
       else squeezeAux n s r (idx + 1))

/-- Modelled from the spec: `mbedtls_sha3_finish` — the `olen` check for
fixed-digest families, then padding (suffix byte at `index`, `0x80` at
`r - 1`), the final permutation, and the squeeze of `olen` bytes.  It fails
with `MBEDTLS_ERR_SHA3_BAD_INPUT_DATA` before writing anything when the
context is not ABSORBING or when `olen` mismatches a fixed-digest family;
on success the context is consumed (zeroized, rate-0 sentinel = FINALIZED).
Returns (status, context after the call, bytes written to `output`). -/
def mbedtls_sha3_finish (ctx : mbedtls_sha3_context) (olen : Nat) :
    Int × mbedtls_sha3_context × List Nat :=
  if ctx.r = 0 then (MBEDTLS_ERR_SHA3_BAD_INPUT_DATA, ctx, [])
  else if ctx.olen ≠ 0 ∧ olen ≠ ctx.olen then (MBEDTLS_ERR_SHA3_BAD_INPUT_DATA, ctx, [])
  else
    let s1 := xorByteIntoState ctx.state ctx.index ctx.xor_byte
    let s2 := xorByteIntoState s1 (ctx.r - 1) 0x80
    let s3 := keccak_f1600 s2
    (0, mbedtls_sha3_init, squeezeAux olen s3 ctx.r 0)

/-- Minimal big-endian byte representation of `x` (empty for 0); the
`fuel` argument bounds the recursion and is taken as `x` itself. -/
def natToBytesBEAux : Nat → Nat → List Nat
  | 0, _ => []
  | _, 0 => []
  | fuel + 1, n + 1 => natToBytesBEAux fuel ((n + 1) / 256) ++ [(n + 1) % 256]

/-- Minimal big-endian byte representation of `x` (empty for 0). -/
def natToBytesBE (x : Nat) : List Nat := natToBytesBEAux x x

/-- Modelled from the spec: SP 800-185 `left_encode(x)` — the minimal
big-endian bytes of `x` prefixed by their count; 0 encodes as `0x01 0x00`. -/
def left_encode (x : Nat) : List Nat :=
  let bs := if x = 0 then [0] else natToBytesBE x
  bs.length :: bs

/-- Modelled from the spec: SP 800-185 `encode_string(X) =
left_encode(8·|X|) ‖ X`. -/
def encode_string (X : List Nat) : List Nat := left_encode (8 * X.length) ++ X

/-- Modelled from the spec: SP 800-185 `bytepad(Z, w) = left_encode(w) ‖ Z`
padded with the minimum number of zero bytes to a multiple of `w`. -/
def bytepad (Z : List Nat) (w : Nat) : List Nat :=
  let p := left_encode w ++ Z
  p ++ List.replicate ((w - p.length % w) % w) 0

/-- Modelled from the spec: `mbedtls_sha3_starts_cshake` — the id must be
cSHAKE128 or cSHAKE256 (else `MBEDTLS_ERR_SHA3_BAD_INPUT_DATA`, context
unchanged); the context is initialized as the SHAKE of the same rate; when
both the name and customization strings are empty nothing further happens
(suffix stays `0x1F`), otherwise the suffix becomes `0x04` and
`bytepad(encode_string(N) ‖ encode_string(S), r)` is absorbed before any
user data. -/
def mbedtls_sha3_starts_cshake (ctx : mbedtls_sha3_context) (id : Nat)
    (name : List Nat) (custom : List Nat) : Int × mbedtls_sha3_context :=
  if ¬(id = MBEDTLS_SHA3_CSHAKE128 ∨ id = MBEDTLS_SHA3_CSHAKE256) then
    (MBEDTLS_ERR_SHA3_BAD_INPUT_DATA, ctx)
  else
    match sha3_get_family id with
    | none => (MBEDTLS_ERR_SHA3_BAD_INPUT_DATA, ctx)
    | some p =>
      let c0 : mbedtls_sha3_context := ⟨zeroState, 0, id, p.r, p.olen, p.xor_byte, p.r⟩
      if name.length = 0 ∧ custom.length = 0 then (0, c0)
      else
        let pre := bytepad (encode_string name ++ encode_string custom) p.r
        (0, absorbBytes { c0 with xor_byte := 0x04 } pre)

/-- Modelled from the spec: the one-shot `mbedtls_sha3` — a transient
context run through starts/update/finish; behaviour identical to the
streaming form.  Returns (status, bytes written to `output`). -/
def mbedtls_sha3 (id : Nat) (input : List Nat) (olen : Nat) : Int × List Nat :=
  let r1 := mbedtls_sha3_starts mbedtls_sha3_init id
  if r1.1 ≠ 0 then (r1.1, [])
  else
    let r2 := mbedtls_sha3_update r1.2 input
    if r2.1 ≠ 0 then (r2.1, [])
    else
      let r3 := mbedtls_sha3_finish r2.2 olen
      if r3.1 ≠ 0 then (r3.1, []) else (0, r3.2.2)

/-- Modelled from the spec: the one-shot `mbedtls_sha3_cshake` — a transient
context run through starts_cshake/update/finish.  Returns (status, bytes
written to `output`). -/
def mbedtls_sha3_cshake (id : Nat) (input : List Nat) (name : List Nat)
    (custom : List Nat) (olen : Nat) : Int × List Nat :=
  let r1 := mbedtls_sha3_starts_cshake mbedtls_sha3_init id name custom
  if r1.1 ≠ 0 then (r1.1, [])
  else
    let r2 := mbedtls_sha3_update r1.2 input
    if r2.1 ≠ 0 then (r2.1, [])
    else
      let r3 := mbedtls_sha3_finish r2.2 olen
      if r3.1 ≠ 0 then (r3.1, []) else (0, r3.2.2)

/-- The context reached by starting family `id` on a fresh context and
absorbing `m` — the streaming prefix shared by several statements below. -/
def startedWith (id : Nat) (m : List Nat) : mbedtls_sha3_context :=
  (mbedtls_sha3_update (mbedtls_sha3_starts mbedtls_sha3_init id).2 m).2

/-- The invariant of a started context: the absorb offset lies strictly
inside the rate window, and the rate is a positive multiple of 8 of at most
168 bytes. -/
def sha3_ctx_inv (c : mbedtls_sha3_context) : Prop :=
  c.index < c.r ∧ 0 < c.r ∧ 8 ∣ c.r ∧ c.r ≤ 168

instance (c : mbedtls_sha3_context) : Decidable (sha3_ctx_inv c) := by
  unfold sha3_ctx_inv; infer_instance

theorem absorbByte_r (c : mbedtls_sha3_context) (b : Nat) : (absorbByte c b).r = c.r := by
  unfold absorbByte; by_cases h : c.index + 1 = c.r <;> simp [h]

theorem absorbByte_olen (c : mbedtls_sha3_context) (b : Nat) :
    (absorbByte c b).olen = c.olen := by
  unfold absorbByte; by_cases h : c.index + 1 = c.r <;> simp [h]

theorem absorbByte_xor_byte (c : mbedtls_sha3_context) (b : Nat) :
    (absorbByte c b).xor_byte = c.xor_byte := by
  unfold absorbByte; by_cases h : c.index + 1 = c.r <;> simp [h]

theorem absorbBytes_r (c : mbedtls_sha3_context) (m : List Nat) :
    (absorbBytes c m).r = c.r := by
  induction m generalizing c with
  | nil => rfl
  | cons b t ih =>
    show (absorbBytes (absorbByte c b) t).r = c.r
    rw [ih, absorbByte_r]

theorem absorbBytes_olen (c : mbedtls_sha3_context) (m : List Nat) :
    (absorbBytes c m).olen = c.olen := by
  induction m generalizing c with
  | nil => rfl
  | cons b t ih =>
    show (absorbBytes (absorbByte c b) t).olen = c.olen
    rw [ih, absorbByte_olen]

theorem absorbBytes_xor_byte (c : mbedtls_sha3_context) (m : List Nat) :
    (absorbBytes c m).xor_byte = c.xor_byte := by
  induction m generalizing c with
  | nil => rfl
  | cons b t ih =>
    show (absorbBytes (absorbByte c b) t).xor_byte = c.xor_byte
    rw [ih, absorbByte_xor_byte]

theorem absorbBytes_append (c : mbedtls_sha3_context) (a b : List Nat) :
    absorbBytes c (a ++ b) = absorbBytes (absorbBytes c a) b :=
  List.foldl_append _ _ _ _

theorem mbedtls_sha3_update_of_started (c : mbedtls_sha3_context) (m : List Nat)
    (h : c.r ≠ 0) : mbedtls_sha3_update c m = (0, absorbBytes c m) := by
  unfold mbedtls_sha3_update; simp [h]

theorem mbedtls_sha3_update_r (c : mbedtls_sha3_context) (m : List Nat) :
    (mbedtls_sha3_update c m).2.r = c.r := by
  unfold mbedtls_sha3_update
  by_cases h : c.r = 0
  · simp [h]
  · simp [h, absorbBytes_r]

theorem absorbByte_index (c : mbedtls_sha3_context) (b : Nat) (h : c.index < c.r) :
    (absorbByte c b).index = (c.index + 1) % c.r := by
  unfold absorbByte
  by_cases h1 : c.index + 1 = c.r
  · simp [h1, Nat.mod_self]
  · have h2 : c.index + 1 < c.r := lt_of_le_of_ne h h1
    simp [h1, Nat.mod_eq_of_lt h2]

theorem absorbBytes_index (c : mbedtls_sha3_context) (m : List Nat) (h : c.index < c.r) :
    (absorbBytes c m).index = (c.index + m.length) % c.r := by
  induction m generalizing c with
  | nil => exact (Nat.mod_eq_of_lt h).symm
  | cons b t ih =>
    show (absorbBytes (absorbByte c b) t).index = _
    have hr : (absorbByte c b).r = c.r := absorbByte_r c b
    have hlt : (absorbByte c b).index < (absorbByte c b).r := by
      rw [absorbByte_index c b h, hr]
      exact Nat.mod_lt _ (Nat.pos_of_ne_zero (by omega))
    rw [ih _ hlt, absorbByte_index c b h, hr, Nat.mod_add_mod]
    have harith : c.index + 1 + t.length = c.index + (b :: t).length := by
      simp only [List.length_cons]
      omega
    rw [harith]

theorem sha3_ctx_inv_absorbBytes (c : mbedtls_sha3_context) (m : List Nat)
    (h : sha3_ctx_inv c) : sha3_ctx_inv (absorbBytes c m) := by
  obtain ⟨h1, h2, h3, h4⟩ := h
  have hidx := absorbBytes_index c m h1
  have hr := absorbBytes_r c m
  refine ⟨?_, ?_, ?_, ?_⟩
  · rw [hidx, hr]
    exact Nat.mod_lt _ h2
  · rw [hr]
    exact h2
  · rw [hr]
    exact h3
  · rw [hr]
    exact h4

theorem absorbBytes_ends_permuted (c : mbedtls_sha3_context) (m : List Nat)
    (h : c.index < c.r) (hm : m ≠ []) (hdvd : c.r ∣ c.index + m.length) :
    ∃ s, (absorbBytes c m).state = keccak_f1600 s := by
  induction m generalizing c with
  | nil => exact absurd rfl hm
  | cons b t ih =>
    cases t with
    | nil =>
      have hd1 : c.r ∣ c.index + 1 := by simpa using hdvd
      have hrle : c.r ≤ c.index + 1 := Nat.le_of_dvd (Nat.succ_pos _) hd1
      have hlen : c.index + 1 = c.r := by omega
      show ∃ s, (absorbBytes (absorbByte c b) []).state = keccak_f1600 s
      unfold absorbBytes List.foldl absorbByte
      simp [hlen]
    | cons b2 t2 =>
      show ∃ s, (absorbBytes (absorbByte c b) (b2 :: t2)).state = keccak_f1600 s
      have hr : (absorbByte c b).r = c.r := absorbByte_r c b
      have hrpos : 0 < c.r := by omega
      have hlt : (absorbByte c b).index < (absorbByte c b).r := by
        rw [absorbByte_index c b h, hr]
        exact Nat.mod_lt _ hrpos
      refine ih (absorbByte c b) hlt (by simp) ?_
      rw [absorbByte_index c b h, hr]
      obtain ⟨k, hk⟩ := hdvd
      have harith : c.index + (b :: b2 :: t2).length = c.index + 1 + (b2 :: t2).length := by
        simp only [List.length_cons]
        omega
      have h0 : (c.index + 1 + (b2 :: t2).length) % c.r = 0 := by
        rw [← harith, hk]
        exact Nat.mul_mod_right _ _
      apply Nat.dvd_of_mod_eq_zero
      rw [Nat.mod_add_mod, h0]

theorem absorbByte_setId (c : mbedtls_sha3_context) (x b : Nat) :
    absorbByte { c with id := x } b = { absorbByte c b with id := x } := by
  unfold absorbByte
  by_cases h : c.index + 1 = c.r <;> simp [h]

theorem absorbBytes_setId (c : mbedtls_sha3_context) (x : Nat) (m : List Nat) :
    absorbBytes { c with id := x } m = { absorbBytes c m with id := x } := by
  induction m generalizing c with
  | nil => rfl
  | cons b t ih =>
    show absorbBytes (absorbByte { c with id := x } b) t = _
    rw [absorbByte_setId, ih]
    rfl

theorem mbedtls_sha3_update_setId (c : mbedtls_sha3_context) (x : Nat) (m : List Nat) :
    mbedtls_sha3_update { c with id := x } m
      = ((mbedtls_sha3_update c m).1, { (mbedtls_sha3_update c m).2 with id := x }) := by
  unfold mbedtls_sha3_update
  by_cases h : c.r = 0 <;> simp [h, absorbBytes_setId]

theorem mbedtls_sha3_finish_setId (c : mbedtls_sha3_context) (x : Nat) (olen : Nat) :
    (mbedtls_sha3_finish { c with id := x } olen).1 = (mbedtls_sha3_finish c olen).1
    ∧ (mbedtls_sha3_finish { c with id := x } olen).2.2
        = (mbedtls_sha3_finish c olen).2.2 := by
  unfold mbedtls_sha3_finish
  by_cases h1 : c.r = 0
  · simp [h1]
  · by_cases h2 : c.olen ≠ 0 ∧ olen ≠ c.olen <;> simp [h1, h2]

theorem mbedtls_sha3_starts_ok (c : mbedtls_sha3_context) (id : Nat)
    (p : mbedtls_sha3_family_functions) (h : sha3_get_family id = some p) :
    mbedtls_sha3_starts c id = (0, ⟨zeroState, 0, id, p.r, p.olen, p.xor_byte, p.r⟩) := by
  unfold mbedtls_sha3_starts
  rw [h]

theorem mbedtls_sha3_starts_err (c : mbedtls_sha3_context) (id : Nat)
    (h : sha3_get_family id = none) :
    mbedtls_sha3_starts c id = (MBEDTLS_ERR_SHA3_BAD_INPUT_DATA, c) := by
  unfold mbedtls_sha3_starts
  rw [h]

theorem sha3_get_family_mem (id : Nat) (p : mbedtls_sha3_family_functions)
    (h : sha3_get_family id = some p) : p ∈ sha3_families :=
  List.mem_of_find?_eq_some h

theorem sha3_families_facts (p : mbedtls_sha3_family_functions) (hp : p ∈ sha3_families) :
    0 < p.r ∧ 8 ∣ p.r ∧ p.r ≤ 168 := by
  fin_cases hp <;> decide

theorem sha3_families_inv (p : mbedtls_sha3_family_functions) (hp : p ∈ sha3_families)
    (i : Nat) : sha3_ctx_inv ⟨zeroState, 0, i, p.r, p.olen, p.xor_byte, p.r⟩ := by
  obtain ⟨h1, h2, h3⟩ := sha3_families_facts p hp
  exact ⟨h1, h1, h2, h3⟩

theorem sha3_get_family_none_of_unrecognized (id : Nat) (h : ¬(1 ≤ id ∧ id ≤ 8)) :
    sha3_get_family id = none := by
  unfold sha3_get_family
  rw [List.find?_eq_none]
  intro p hp
  fin_cases hp <;>
    simp only [beq_iff_eq, MBEDTLS_SHA3_224, MBEDTLS_SHA3_256, MBEDTLS_SHA3_384,
      MBEDTLS_SHA3_512, MBEDTLS_SHA3_SHAKE128, MBEDTLS_SHA3_SHAKE256,
      MBEDTLS_SHA3_CSHAKE128, MBEDTLS_SHA3_CSHAKE256] <;>
    omega

theorem mbedtls_sha3_starts_status (c : mbedtls_sha3_context) (id : Nat) :
    (mbedtls_sha3_starts c id).1 = 0
      ∨ (mbedtls_sha3_starts c id).1 = MBEDTLS_ERR_SHA3_BAD_INPUT_DATA := by
  unfold mbedtls_sha3_starts
  cases h : sha3_get_family id <;> simp

theorem mbedtls_sha3_update_status (c : mbedtls_sha3_context) (m : List Nat) :
    (mbedtls_sha3_update c m).1 = 0
      ∨ (mbedtls_sha3_update c m).1 = MBEDTLS_ERR_SHA3_BAD_INPUT_DATA := by
  unfold mbedtls_sha3_update
  by_cases h : c.r = 0 <;> simp [h]

theorem mbedtls_sha3_finish_status (c : mbedtls_sha3_context) (olen : Nat) :
    (mbedtls_sha3_finish c olen).1 = 0
      ∨ (mbedtls_sha3_finish c olen).1 = MBEDTLS_ERR_SHA3_BAD_INPUT_DATA := by
  unfold mbedtls_sha3_finish
  by_cases h1 : c.r = 0
  · simp [h1]
  · by_cases h2 : c.olen ≠ 0 ∧ olen ≠ c.olen <;> simp [h1, h2]

theorem mbedtls_sha3_finish_of_ok (c : mbedtls_sha3_context) (olen : Nat)
    (hr : c.r ≠ 0) (ho : ¬(c.olen ≠ 0 ∧ olen ≠ c.olen)) :
    mbedtls_sha3_finish c olen
      = (0, mbedtls_sha3_init,
         squeezeAux olen
           (keccak_f1600
             (xorByteIntoState (xorByteIntoState c.state c.index c.xor_byte)
               (c.r - 1) 0x80))
           c.r 0) := by
  unfold mbedtls_sha3_finish
  simp [hr, ho]

theorem mbedtls_sha3_finish_ok_iff (c : mbedtls_sha3_context) (olen : Nat) :
    (mbedtls_sha3_finish c olen).1 = 0 ↔ (c.r ≠ 0 ∧ (c.olen = 0 ∨ olen = c.olen)) := by
  unfold mbedtls_sha3_finish
  by_cases h1 : c.r = 0
  · rw [if_pos h1]
    constructor
    · intro hx
      norm_num [MBEDTLS_ERR_SHA3_BAD_INPUT_DATA] at hx
    · intro hx
      exact absurd h1 hx.1
  · rw [if_neg h1]
    by_cases h2 : c.olen ≠ 0 ∧ olen ≠ c.olen
    · rw [if_pos h2]
      constructor
      · intro hx
        norm_num [MBEDTLS_ERR_SHA3_BAD_INPUT_DATA] at hx
      · intro hx
        rcases hx.2 with hb | hb
        · exact absurd hb h2.1
        · exact absurd hb h2.2
    · rw [if_neg h2]
      push_neg at h2
      constructor
      · intro _
        refine ⟨h1, ?_⟩
        by_cases h3 : c.olen = 0
        · exact Or.inl h3
        · exact Or.inr (h2 h3)
      · intro _
        rfl

theorem squeezeAux_length (n : Nat) (s : List Nat) (r idx : Nat) :
    (squeezeAux n s r idx).length = n := by
  induction n generalizing s idx with
  | zero => rfl
  | succ k ih =>
    unfold squeezeAux
    by_cases h : idx + 1 = r <;> simp [h, ih]

theorem squeezeAux_take (n k : Nat) (s : List Nat) (r idx : Nat) :
    (squeezeAux (n + k) s r idx).take n = squeezeAux n s r idx := by
  induction n generalizing s idx k with
  | zero => simp [squeezeAux]
  | succ j ih =>
    have harith : j + 1 + k = (j + k) + 1 := by omega
    rw [harith]
    unfold squeezeAux
    by_cases h : idx + 1 = r <;> simp [h, List.take_succ_cons, ih]

theorem mbedtls_sha3_update_fold (ctx : mbedtls_sha3_context) (h : ctx.r ≠ 0)
    (chunks : List (List Nat)) :
    chunks.foldl (fun c piece => (mbedtls_sha3_update c piece).2) ctx
      = absorbBytes ctx chunks.flatten := by
  induction chunks generalizing ctx with
  | nil => rfl
  | cons a t ih =>
    simp only [List.foldl_cons]
    rw [mbedtls_sha3_update_of_started ctx a h]
    show t.foldl _ (absorbBytes ctx a) = _
    rw [ih (absorbBytes ctx a) (by rw [absorbBytes_r]; exact h)]
    rw [show (a :: t).flatten = a ++ t.flatten from rfl, absorbBytes_append]

/-- C1: streaming equivalence of `mbedtls_sha3_update` — absorbing a message
through one update call yields the same context as absorbing any partition
of it through successive update calls (each of which succeeds), and the
zero-length update is a no-op. -/
theorem mbedtls_sha3_update_streaming (ctx : mbedtls_sha3_context)
    (h : ctx.r ≠ 0) (chunks : List (List Nat)) (m : List Nat) :
    (mbedtls_sha3_update ctx chunks.flatten).2
        = chunks.foldl (fun c piece => (mbedtls_sha3_update c piece).2) ctx
    ∧ (mbedtls_sha3_update ctx chunks.flatten).1 = 0
    ∧ (mbedtls_sha3_update
        (chunks.foldl (fun c piece => (mbedtls_sha3_update c piece).2) ctx) m).1 = 0
    ∧ mbedtls_sha3_update ctx [] = (0, ctx) := by
  have hfold := mbedtls_sha3_update_fold ctx h chunks
  refine ⟨?_, ?_, ?_, ?_⟩
  · rw [mbedtls_sha3_update_of_started _ _ h, hfold]
  · rw [mbedtls_sha3_update_of_started _ _ h]
  · rw [hfold, mbedtls_sha3_update_of_started _ _ (by rw [absorbBytes_r]; exact h)]
  · rw [mbedtls_sha3_update_of_started _ _ h]
    rfl

theorem mbedtls_sha3_update_streaming_witness :
    (mbedtls_sha3_update (startedWith 2 []) ([[1], [2, 3]] : List (List Nat)).flatten).2
        = ([[1], [2, 3]] : List (List Nat)).foldl
            (fun c piece => (mbedtls_sha3_update c piece).2) (startedWith 2 [])
    ∧ (mbedtls_sha3_update (startedWith 2 []) ([[1], [2, 3]] : List (List Nat)).flatten).1 = 0
    ∧ (mbedtls_sha3_update
        (([[1], [2, 3]] : List (List Nat)).foldl
          (fun c piece => (mbedtls_sha3_update c piece).2) (startedWith 2 [])) [4]).1 = 0
    ∧ mbedtls_sha3_update (startedWith 2 []) [] = (0, startedWith 2 []) :=
  mbedtls_sha3_update_streaming (startedWith 2 []) (by decide) [[1], [2, 3]] [4]

theorem startedWith_fields (id : Nat) (m : List Nat)
    (p : mbedtls_sha3_family_functions) (h : sha3_get_family id = some p) :
    (startedWith id m).r = p.r ∧ (startedWith id m).olen = p.olen
      ∧ (startedWith id m).xor_byte = p.xor_byte := by
  unfold startedWith
  rw [mbedtls_sha3_starts_ok _ _ _ h]
  have hrpos := (sha3_families_facts p (sha3_get_family_mem _ _ h)).1
  rw [mbedtls_sha3_update_of_started _ _ (show p.r ≠ 0 by omega)]
  exact ⟨absorbBytes_r _ _, absorbBytes_olen _ _, absorbBytes_xor_byte _ _⟩

theorem finish_fixed_case (m : List Nat) (olen : Nat) (i d : Nat)
    (p : mbedtls_sha3_family_functions) (hp : sha3_get_family i = some p)
    (hpr : p.r ≠ 0) (hpo : p.olen = d) (hd : d ≠ 0) :
    ((mbedtls_sha3_finish (startedWith i m) olen).1 = 0 ↔ olen = d)
    ∧ ((mbedtls_sha3_finish (startedWith i m) olen).1 ≠ 0 →
        (mbedtls_sha3_finish (startedWith i m) olen).1
          = MBEDTLS_ERR_SHA3_BAD_INPUT_DATA) := by
  obtain ⟨hr, ho, hx⟩ := startedWith_fields i m p hp
  constructor
  · rw [mbedtls_sha3_finish_ok_iff, hr, ho, hpo]
    constructor
    · intro hcon
      rcases hcon.2 with h0 | h0
      · exact absurd h0 hd
      · exact h0
    · intro h0
      exact ⟨hpr, Or.inr h0⟩
  · intro hne
    exact (mbedtls_sha3_finish_status _ olen).resolve_left hne

theorem finish_xof_case (m : List Nat) (olen : Nat) (i : Nat)
    (p : mbedtls_sha3_family_functions) (hp : sha3_get_family i = some p)
    (hpr : p.r ≠ 0) (hpo : p.olen = 0) :
    (mbedtls_sha3_finish (startedWith i m) olen).1 = 0
    ∧ (olen = 0 → (mbedtls_sha3_finish (startedWith i m) olen).2.2 = []) := by
  obtain ⟨hr, ho, hx⟩ := startedWith_fields i m p hp
  have hr0 : (startedWith i m).r ≠ 0 := by rw [hr]; exact hpr
  have ho0 : (startedWith i m).olen = 0 := by rw [ho, hpo]
  refine ⟨(mbedtls_sha3_finish_ok_iff _ _).mpr ⟨hr0, Or.inl ho0⟩, ?_⟩
  intro h0
  subst h0
  rw [mbedtls_sha3_finish_of_ok _ _ hr0 (fun hcon => hcon.1 ho0)]
  rfl

/-- C2: `mbedtls_sha3_finish` on a started fixed-digest context SHA3-N
succeeds iff `olen` equals N/8 (28, 32, 48, 64), failing with
`MBEDTLS_ERR_SHA3_BAD_INPUT_DATA` otherwise; on a started SHAKE or cSHAKE
context it succeeds for every `olen`, and with `olen = 0` it writes
nothing. -/
theorem mbedtls_sha3_finish_fixed_length (m : List Nat) (olen : Nat) :
    (∀ p ∈ ([(1, 28), (2, 32), (3, 48), (4, 64)] : List (Nat × Nat)),
        ((mbedtls_sha3_finish (startedWith p.1 m) olen).1 = 0 ↔ olen = p.2)
          ∧ ((mbedtls_sha3_finish (startedWith p.1 m) olen).1 ≠ 0 →
              (mbedtls_sha3_finish (startedWith p.1 m) olen).1
                = MBEDTLS_ERR_SHA3_BAD_INPUT_DATA))
    ∧ (∀ id ∈ ([5, 6, 7, 8] : List Nat),
        (mbedtls_sha3_finish (startedWith id m) olen).1 = 0
          ∧ (olen = 0 → (mbedtls_sha3_finish (startedWith id m) olen).2.2 = [])) := by
  constructor
  · intro p hp
    fin_cases hp
    · exact finish_fixed_case m olen 1 28 ⟨1, 144, 28, 0x06⟩ rfl (by decide) rfl (by decide)
    · exact finish_fixed_case m olen 2 32 ⟨2, 136, 32, 0x06⟩ rfl (by decide) rfl (by decide)
    · exact finish_fixed_case m olen 3 48 ⟨3, 104, 48, 0x06⟩ rfl (by decide) rfl (by decide)
    · exact finish_fixed_case m olen 4 64 ⟨4, 72, 64, 0x06⟩ rfl (by decide) rfl (by decide)
  · intro id hid
    fin_cases hid
    · exact finish_xof_case m olen 5 ⟨5, 168, 0, 0x1F⟩ rfl (by decide) rfl
    · exact finish_xof_case m olen 6 ⟨6, 136, 0, 0x1F⟩ rfl (by decide) rfl
    · exact finish_xof_case m olen 7 ⟨7, 168, 0, 0x1F⟩ rfl (by decide) rfl
    · exact finish_xof_case m olen 8 ⟨8, 136, 0, 0x1F⟩ rfl (by decide) rfl

theorem mbedtls_sha3_finish_fixed_length_witness :
    (((mbedtls_sha3_finish (startedWith 2 [9]) 32).1 = 0 ↔ 32 = 32)
      ∧ ((mbedtls_sha3_finish (startedWith 2 [9]) 32).1 ≠ 0 →
          (mbedtls_sha3_finish (startedWith 2 [9]) 32).1 = MBEDTLS_ERR_SHA3_BAD_INPUT_DATA))
    ∧ ((mbedtls_sha3_finish (startedWith 6 [9]) 32).1 = 0
      ∧ (32 = 0 → (mbedtls_sha3_finish (startedWith 6 [9]) 32).2.2 = [])) :=
  ⟨(mbedtls_sha3_finish_fixed_length [9] 32).1 (2, 32) (by decide),
   (mbedtls_sha3_finish_fixed_length [9] 32).2 6 (by decide)⟩

/-- C5: the XOF prefix property of `mbedtls_sha3_finish` — on a started
XOF context, the first `o1` bytes produced for a larger `o2` equal the full
output produced for `o1`, and in each case exactly `olen` bytes are
written (never past the buffer). -/
theorem mbedtls_sha3_finish_xof_prefix (c : mbedtls_sha3_context) (o1 o2 : Nat)
    (hr : c.r ≠ 0) (hx : c.olen = 0) (h12 : o1 < o2) :
    ((mbedtls_sha3_finish c o2).2.2).take o1 = (mbedtls_sha3_finish c o1).2.2
    ∧ ((mbedtls_sha3_finish c o2).2.2).length = o2
    ∧ ((mbedtls_sha3_finish c o1).2.2).length = o1 := by
  rw [mbedtls_sha3_finish_of_ok c o2 hr (fun hcon => hcon.1 hx),
      mbedtls_sha3_finish_of_ok c o1 hr (fun hcon => hcon.1 hx)]
  refine ⟨?_, squeezeAux_length _ _ _ _, squeezeAux_length _ _ _ _⟩
  have h2 : o2 = o1 + (o2 - o1) := by omega
  rw [h2]
  exact squeezeAux_take o1 (o2 - o1) _ c.r 0

theorem mbedtls_sha3_finish_xof_prefix_witness :
    ((mbedtls_sha3_finish (startedWith 5 []) 2).2.2).take 1
        = (mbedtls_sha3_finish (startedWith 5 []) 1).2.2
    ∧ ((mbedtls_sha3_finish (startedWith 5 []) 2).2.2).length = 2
    ∧ ((mbedtls_sha3_finish (startedWith 5 []) 1).2.2).length = 1 :=
  mbedtls_sha3_finish_xof_prefix (startedWith 5 []) 1 2 (by decide) (by decide)
    (by decide)

/-- C9: determinism of the one-shot `mbedtls_sha3` — two calls with equal
id, input bytes and output length return the same status and identical
output bytes; the result depends on nothing outside the arguments. -/
theorem mbedtls_sha3_deterministic (id1 id2 : Nat) (m1 m2 : List Nat)
    (o1 o2 : Nat) (h1 : id1 = id2) (h2 : m1 = m2) (h3 : o1 = o2) :
    mbedtls_sha3 id1 m1 o1 = mbedtls_sha3 id2 m2 o2 := by
  subst h1
  subst h2
  subst h3
  rfl

theorem mbedtls_sha3_deterministic_witness :
    mbedtls_sha3 2 [] 32 = mbedtls_sha3 2 [] 32 :=
  mbedtls_sha3_deterministic 2 2 [] [] 32 32 rfl rfl rfl

/-- C10: error atomicity of the one-shot `mbedtls_sha3` — whenever it
returns a nonzero status, that status is `MBEDTLS_ERR_SHA3_BAD_INPUT_DATA`
and no byte has been written to the output buffer. -/
theorem mbedtls_sha3_error_atomicity (id : Nat) (m : List Nat) (olen : Nat)
    (h : (mbedtls_sha3 id m olen).1 ≠ 0) :
    (mbedtls_sha3 id m olen).2 = []
    ∧ (mbedtls_sha3 id m olen).1 = MBEDTLS_ERR_SHA3_BAD_INPUT_DATA := by
  simp only [mbedtls_sha3] at h ⊢
  split_ifs at h ⊢ with hc1 hc2 hc3
  · exact ⟨rfl, (mbedtls_sha3_starts_status _ _).resolve_left hc1⟩
  · exact ⟨rfl, (mbedtls_sha3_update_status _ _).resolve_left hc2⟩
  · exact ⟨rfl, (mbedtls_sha3_finish_status _ _).resolve_left hc3⟩
  · exact absurd rfl h

theorem mbedtls_sha3_error_atomicity_witness :
    (mbedtls_sha3 0 [] 0).2 = []
    ∧ (mbedtls_sha3 0 [] 0).1 = MBEDTLS_ERR_SHA3_BAD_INPUT_DATA :=
  mbedtls_sha3_error_atomicity 0 [] 0 (by decide)

theorem starts_cshake_cshake128_eq (ctx : mbedtls_sha3_context) (name custom : List Nat) :
    mbedtls_sha3_starts_cshake ctx MBEDTLS_SHA3_CSHAKE128 name custom
      = if name.length = 0 ∧ custom.length = 0
        then (0, ⟨zeroState, 0, MBEDTLS_SHA3_CSHAKE128, 168, 0, 0x1F, 168⟩)
        else (0, absorbBytes ⟨zeroState, 0, MBEDTLS_SHA3_CSHAKE128, 168, 0, 0x04, 168⟩
                (bytepad (encode_string name ++ encode_string custom) 168)) := rfl

theorem starts_cshake_cshake256_eq (ctx : mbedtls_sha3_context) (name custom : List Nat) :
    mbedtls_sha3_starts_cshake ctx MBEDTLS_SHA3_CSHAKE256 name custom
      = if name.length = 0 ∧ custom.length = 0
        then (0, ⟨zeroState, 0, MBEDTLS_SHA3_CSHAKE256, 136, 0, 0x1F, 136⟩)
        else (0, absorbBytes ⟨zeroState, 0, MBEDTLS_SHA3_CSHAKE256, 136, 0, 0x04, 136⟩
                (bytepad (encode_string name ++ encode_string custom) 136)) := rfl

/-- C3: cSHAKE with empty name and customization strings degenerates to the
SHAKE of the same strength — `mbedtls_sha3_starts_cshake` then succeeds,
keeps the suffix byte `0x1F`, absorbs no preamble (zero state, index 0,
context equal to the SHAKE-started one up to the stored id), and the
subsequent update/finish pipeline produces the status and output of SHAKE
on the identical input; when either string is non-empty the suffix byte
becomes `0x04`. -/
theorem cshake_empty_framing (id sid : Nat) (m : List Nat) (olen : Nat)
    (name custom : List Nat)
    (hid : (id = MBEDTLS_SHA3_CSHAKE128 ∧ sid = MBEDTLS_SHA3_SHAKE128)
      ∨ (id = MBEDTLS_SHA3_CSHAKE256 ∧ sid = MBEDTLS_SHA3_SHAKE256))
    (hne : ¬(name.length = 0 ∧ custom.length = 0)) :
    (mbedtls_sha3_starts_cshake mbedtls_sha3_init id [] []).1 = 0
    ∧ (mbedtls_sha3_starts_cshake mbedtls_sha3_init id [] []).2.xor_byte = 0x1F
    ∧ (mbedtls_sha3_starts_cshake mbedtls_sha3_init id [] []).2.state = zeroState
    ∧ (mbedtls_sha3_starts_cshake mbedtls_sha3_init id [] []).2.index = 0
    ∧ (mbedtls_sha3_starts_cshake mbedtls_sha3_init id [] []).2
        = { (mbedtls_sha3_starts mbedtls_sha3_init sid).2 with id := id }
    ∧ (mbedtls_sha3_finish (mbedtls_sha3_update
          (mbedtls_sha3_starts_cshake mbedtls_sha3_init id [] []).2 m).2 olen).1
      = (mbedtls_sha3_finish (mbedtls_sha3_update
          (mbedtls_sha3_starts mbedtls_sha3_init sid).2 m).2 olen).1
    ∧ (mbedtls_sha3_finish (mbedtls_sha3_update
          (mbedtls_sha3_starts_cshake mbedtls_sha3_init id [] []).2 m).2 olen).2.2
      = (mbedtls_sha3_finish (mbedtls_sha3_update
          (mbedtls_sha3_starts mbedtls_sha3_init sid).2 m).2 olen).2.2
    ∧ (mbedtls_sha3_starts_cshake mbedtls_sha3_init id name custom).2.xor_byte = 0x04 := by
  rcases hid with ⟨h1, h2⟩ | ⟨h1, h2⟩ <;> subst h1 <;> subst h2
  · refine ⟨rfl, rfl, rfl, rfl, rfl, ?_, ?_, ?_⟩
    · rw [show (mbedtls_sha3_starts_cshake mbedtls_sha3_init MBEDTLS_SHA3_CSHAKE128 [] []).2
            = { (mbedtls_sha3_starts mbedtls_sha3_init MBEDTLS_SHA3_SHAKE128).2
                with id := MBEDTLS_SHA3_CSHAKE128 } from rfl,
          mbedtls_sha3_update_setId]
      exact (mbedtls_sha3_finish_setId
        (mbedtls_sha3_update (mbedtls_sha3_starts mbedtls_sha3_init
          MBEDTLS_SHA3_SHAKE128).2 m).2 MBEDTLS_SHA3_CSHAKE128 olen).1
    · rw [show (mbedtls_sha3_starts_cshake mbedtls_sha3_init MBEDTLS_SHA3_CSHAKE128 [] []).2
            = { (mbedtls_sha3_starts mbedtls_sha3_init MBEDTLS_SHA3_SHAKE128).2
                with id := MBEDTLS_SHA3_CSHAKE128 } from rfl,
          mbedtls_sha3_update_setId]
      exact (mbedtls_sha3_finish_setId
        (mbedtls_sha3_update (mbedtls_sha3_starts mbedtls_sha3_init
          MBEDTLS_SHA3_SHAKE128).2 m).2 MBEDTLS_SHA3_CSHAKE128 olen).2
    · rw [starts_cshake_cshake128_eq, if_neg hne]
      exact absorbBytes_xor_byte _ _
  · refine ⟨rfl, rfl, rfl, rfl, rfl, ?_, ?_, ?_⟩
    · rw [show (mbedtls_sha3_starts_cshake mbedtls_sha3_init MBEDTLS_SHA3_CSHAKE256 [] []).2
            = { (mbedtls_sha3_starts mbedtls_sha3_init MBEDTLS_SHA3_SHAKE256).2
                with id := MBEDTLS_SHA3_CSHAKE256 } from rfl,
          mbedtls_sha3_update_setId]
      exact (mbedtls_sha3_finish_setId
        (mbedtls_sha3_update (mbedtls_sha3_starts mbedtls_sha3_init
          MBEDTLS_SHA3_SHAKE256).2 m).2 MBEDTLS_SHA3_CSHAKE256 olen).1
    · rw [show (mbedtls_sha3_starts_cshake mbedtls_sha3_init MBEDTLS_SHA3_CSHAKE256 [] []).2
            = { (mbedtls_sha3_starts mbedtls_sha3_init MBEDTLS_SHA3_SHAKE256).2
                with id := MBEDTLS_SHA3_CSHAKE256 } from rfl,
          mbedtls_sha3_update_setId]
      exact (mbedtls_sha3_finish_setId
        (mbedtls_sha3_update (mbedtls_sha3_starts mbedtls_sha3_init
          MBEDTLS_SHA3_SHAKE256).2 m).2 MBEDTLS_SHA3_CSHAKE256 olen).2
    · rw [starts_cshake_cshake256_eq, if_neg hne]
      exact absorbBytes_xor_byte _ _

theorem cshake_empty_framing_witness :
    (mbedtls_sha3_starts_cshake mbedtls_sha3_init MBEDTLS_SHA3_CSHAKE128 [] []).1 = 0
    ∧ (mbedtls_sha3_starts_cshake mbedtls_sha3_init
        MBEDTLS_SHA3_CSHAKE128 [] []).2.xor_byte = 0x1F
    ∧ (mbedtls_sha3_starts_cshake mbedtls_sha3_init
        MBEDTLS_SHA3_CSHAKE128 [] []).2.state = zeroState
    ∧ (mbedtls_sha3_starts_cshake mbedtls_sha3_init
        MBEDTLS_SHA3_CSHAKE128 [] []).2.index = 0
    ∧ (mbedtls_sha3_starts_cshake mbedtls_sha3_init MBEDTLS_SHA3_CSHAKE128 [] []).2
        = { (mbedtls_sha3_starts mbedtls_sha3_init MBEDTLS_SHA3_SHAKE128).2
            with id := MBEDTLS_SHA3_CSHAKE128 }
    ∧ (mbedtls_sha3_finish (mbedtls_sha3_update
          (mbedtls_sha3_starts_cshake mbedtls_sha3_init
            MBEDTLS_SHA3_CSHAKE128 [] []).2 [1]).2 3).1
      = (mbedtls_sha3_finish (mbedtls_sha3_update
          (mbedtls_sha3_starts mbedtls_sha3_init MBEDTLS_SHA3_SHAKE128).2 [1]).2 3).1
    ∧ (mbedtls_sha3_finish (mbedtls_sha3_update
          (mbedtls_sha3_starts_cshake mbedtls_sha3_init
            MBEDTLS_SHA3_CSHAKE128 [] []).2 [1]).2 3).2.2
      = (mbedtls_sha3_finish (mbedtls_sha3_update
          (mbedtls_sha3_starts mbedtls_sha3_init MBEDTLS_SHA3_SHAKE128).2 [1]).2 3).2.2
    ∧ (mbedtls_sha3_starts_cshake mbedtls_sha3_init
        MBEDTLS_SHA3_CSHAKE128 [65] []).2.xor_byte = 0x04 :=
  cshake_empty_framing MBEDTLS_SHA3_CSHAKE128 MBEDTLS_SHA3_SHAKE128 [1] 3 [65] []
    (Or.inl ⟨rfl, rfl⟩) (by decide)

/-- C4: state-machine misuse is rejected — update and finish fail with
`MBEDTLS_ERR_SHA3_BAD_INPUT_DATA` on a context that was only initialized
(rate-0 sentinel), and on a context coming out of a successful finish;
the failing calls leave the context unchanged, and starts from any state
resets the context to the zeroed absorbing state with the new family
parameters. -/
theorem sha3_state_machine_misuse (ctx fin_ctx : mbedtls_sha3_context)
    (m out : List Nat) (olen olen2 id : Nat)
    (p : mbedtls_sha3_family_functions)
    (hfin : mbedtls_sha3_finish ctx olen = (0, fin_ctx, out))
    (hp : sha3_get_family id = some p) :
    (mbedtls_sha3_update mbedtls_sha3_init m).1 = MBEDTLS_ERR_SHA3_BAD_INPUT_DATA
    ∧ (mbedtls_sha3_update mbedtls_sha3_init m).2 = mbedtls_sha3_init
    ∧ (mbedtls_sha3_finish mbedtls_sha3_init olen2).1 = MBEDTLS_ERR_SHA3_BAD_INPUT_DATA
    ∧ (mbedtls_sha3_finish mbedtls_sha3_init olen2).2.1 = mbedtls_sha3_init
    ∧ (mbedtls_sha3_update fin_ctx m).1 = MBEDTLS_ERR_SHA3_BAD_INPUT_DATA
    ∧ (mbedtls_sha3_update fin_ctx m).2 = fin_ctx
    ∧ (mbedtls_sha3_finish fin_ctx olen2).1 = MBEDTLS_ERR_SHA3_BAD_INPUT_DATA
    ∧ mbedtls_sha3_starts ctx id = mbedtls_sha3_starts mbedtls_sha3_init id
    ∧ mbedtls_sha3_starts fin_ctx id
        = (0, ⟨zeroState, 0, id, p.r, p.olen, p.xor_byte, p.r⟩) := by
  have hfc : fin_ctx = mbedtls_sha3_init := by
    unfold mbedtls_sha3_finish at hfin
    by_cases h1 : ctx.r = 0
    · rw [if_pos h1] at hfin
      have hco := congrArg Prod.fst hfin
      norm_num [MBEDTLS_ERR_SHA3_BAD_INPUT_DATA] at hco
    · rw [if_neg h1] at hfin
      by_cases h2 : ctx.olen ≠ 0 ∧ olen ≠ ctx.olen
      · rw [if_pos h2] at hfin
        have hco := congrArg Prod.fst hfin
        norm_num [MBEDTLS_ERR_SHA3_BAD_INPUT_DATA] at hco
      · rw [if_neg h2] at hfin
        have hco := congrArg (fun t => t.2.1) hfin
        exact hco.symm
  subst hfc
  refine ⟨rfl, rfl, rfl, rfl, rfl, rfl, rfl, ?_,
    mbedtls_sha3_starts_ok mbedtls_sha3_init id p hp⟩
  rw [mbedtls_sha3_starts_ok ctx id p hp,
    mbedtls_sha3_starts_ok mbedtls_sha3_init id p hp]

theorem sha3_state_machine_misuse_witness :
    (mbedtls_sha3_update mbedtls_sha3_init [1]).1 = MBEDTLS_ERR_SHA3_BAD_INPUT_DATA
    ∧ (mbedtls_sha3_update mbedtls_sha3_init [1]).2 = mbedtls_sha3_init
    ∧ (mbedtls_sha3_finish mbedtls_sha3_init 4).1 = MBEDTLS_ERR_SHA3_BAD_INPUT_DATA
    ∧ (mbedtls_sha3_finish mbedtls_sha3_init 4).2.1 = mbedtls_sha3_init
    ∧ (mbedtls_sha3_update mbedtls_sha3_init [1]).1 = MBEDTLS_ERR_SHA3_BAD_INPUT_DATA
    ∧ (mbedtls_sha3_update mbedtls_sha3_init [1]).2 = mbedtls_sha3_init
    ∧ (mbedtls_sha3_finish mbedtls_sha3_init 4).1 = MBEDTLS_ERR_SHA3_BAD_INPUT_DATA
    ∧ mbedtls_sha3_starts (startedWith 5 []) 3
        = mbedtls_sha3_starts mbedtls_sha3_init 3
    ∧ mbedtls_sha3_starts mbedtls_sha3_init 3
        = (0, ⟨zeroState, 0, 3, 104, 48, 0x06, 104⟩) :=
  sha3_state_machine_misuse (startedWith 5 []) mbedtls_sha3_init [1] [] 0 4 3
    ⟨MBEDTLS_SHA3_384, 104, 48, 0x06⟩ (by decide) rfl

theorem mbedtls_sha3_finish_err_out (c : mbedtls_sha3_context) (olen : Nat)
    (h : (mbedtls_sha3_finish c olen).1 ≠ 0) :
    (mbedtls_sha3_finish c olen).2.2 = [] := by
  unfold mbedtls_sha3_finish at h ⊢
  split_ifs at h ⊢
  · rfl
  · rfl
  · exact absurd rfl h

theorem mbedtls_sha3_eq_pipeline (id : Nat) (m : List Nat) (olen : Nat)
    (hok : (mbedtls_sha3_starts mbedtls_sha3_init id).1 = 0)
    (hr1 : (mbedtls_sha3_starts mbedtls_sha3_init id).2.r ≠ 0) :
    mbedtls_sha3 id m olen
      = ((mbedtls_sha3_finish (startedWith id m) olen).1,
         (mbedtls_sha3_finish (startedWith id m) olen).2.2) := by
  have hupd : (mbedtls_sha3_update (mbedtls_sha3_starts mbedtls_sha3_init id).2 m).1 = 0 := by
    rw [mbedtls_sha3_update_of_started _ _ hr1]
  simp only [mbedtls_sha3]
  rw [if_neg (show ¬((mbedtls_sha3_starts mbedtls_sha3_init id).1 ≠ 0)
        from fun hcon => hcon hok)]
  rw [if_neg (show ¬((mbedtls_sha3_update
        (mbedtls_sha3_starts mbedtls_sha3_init id).2 m).1 ≠ 0)
        from fun hcon => hcon hupd)]
  rw [show (mbedtls_sha3_update (mbedtls_sha3_starts mbedtls_sha3_init id).2 m).2
        = startedWith id m from rfl]
  by_cases h3 : (mbedtls_sha3_finish (startedWith id m) olen).1 ≠ 0
  · rw [if_pos h3, mbedtls_sha3_finish_err_out _ _ h3]
  · rw [if_neg h3]
    push_neg at h3
    exact Prod.ext_iff.mpr ⟨h3.symm, rfl⟩

theorem cshake_oneshot_as_shake128 (m : List Nat) (olen : Nat) :
    mbedtls_sha3 MBEDTLS_SHA3_CSHAKE128 m olen
      = mbedtls_sha3 MBEDTLS_SHA3_SHAKE128 m olen := by
  rw [mbedtls_sha3_eq_pipeline MBEDTLS_SHA3_CSHAKE128 m olen rfl (by decide),
      mbedtls_sha3_eq_pipeline MBEDTLS_SHA3_SHAKE128 m olen rfl (by decide)]
  have hsw : startedWith MBEDTLS_SHA3_CSHAKE128 m
      = { startedWith MBEDTLS_SHA3_SHAKE128 m with id := MBEDTLS_SHA3_CSHAKE128 } := by
    unfold startedWith
    rw [show (mbedtls_sha3_starts mbedtls_sha3_init MBEDTLS_SHA3_CSHAKE128).2
        = { (mbedtls_sha3_starts mbedtls_sha3_init MBEDTLS_SHA3_SHAKE128).2
            with id := MBEDTLS_SHA3_CSHAKE128 } from rfl, mbedtls_sha3_update_setId]
  rw [hsw]
  have hf := mbedtls_sha3_finish_setId (startedWith MBEDTLS_SHA3_SHAKE128 m)
    MBEDTLS_SHA3_CSHAKE128 olen
  exact Prod.ext_iff.mpr ⟨hf.1, hf.2⟩

theorem cshake_oneshot_as_shake256 (m : List Nat) (olen : Nat) :
    mbedtls_sha3 MBEDTLS_SHA3_CSHAKE256 m olen
      = mbedtls_sha3 MBEDTLS_SHA3_SHAKE256 m olen := by
  rw [mbedtls_sha3_eq_pipeline MBEDTLS_SHA3_CSHAKE256 m olen rfl (by decide),
      mbedtls_sha3_eq_pipeline MBEDTLS_SHA3_SHAKE256 m olen rfl (by decide)]
  have hsw : startedWith MBEDTLS_SHA3_CSHAKE256 m
      = { startedWith MBEDTLS_SHA3_SHAKE256 m with id := MBEDTLS_SHA3_CSHAKE256 } := by
    unfold startedWith
    rw [show (mbedtls_sha3_starts mbedtls_sha3_init MBEDTLS_SHA3_CSHAKE256).2
        = { (mbedtls_sha3_starts mbedtls_sha3_init MBEDTLS_SHA3_SHAKE256).2
            with id := MBEDTLS_SHA3_CSHAKE256 } from rfl, mbedtls_sha3_update_setId]
  rw [hsw]
  have hf := mbedtls_sha3_finish_setId (startedWith MBEDTLS_SHA3_SHAKE256 m)
    MBEDTLS_SHA3_CSHAKE256 olen
  exact Prod.ext_iff.mpr ⟨hf.1, hf.2⟩

/-- C6: `mbedtls_sha3_starts` fails with `MBEDTLS_ERR_SHA3_BAD_INPUT_DATA`
(context unchanged) exactly on the ids outside the eight recognized family
identifiers 1..8 — in particular on `MBEDTLS_SHA3_NONE` — and succeeds on
all eight; for the cSHAKE ids it configures the context as the SHAKE of the
same strength (same parameters, suffix `0x1F`, no framing), so the whole
subsequent behaviour, e.g. through the one-shot, equals SHAKE. -/
theorem mbedtls_sha3_starts_id_validation (ctx : mbedtls_sha3_context) (id : Nat)
    (m : List Nat) (olen : Nat) (hbad : ¬(1 ≤ id ∧ id ≤ 8)) :
    mbedtls_sha3_starts ctx id = (MBEDTLS_ERR_SHA3_BAD_INPUT_DATA, ctx)
    ∧ (mbedtls_sha3_starts ctx MBEDTLS_SHA3_NONE).1 = MBEDTLS_ERR_SHA3_BAD_INPUT_DATA
    ∧ (mbedtls_sha3_starts ctx MBEDTLS_SHA3_224).1 = 0
    ∧ (mbedtls_sha3_starts ctx MBEDTLS_SHA3_256).1 = 0
    ∧ (mbedtls_sha3_starts ctx MBEDTLS_SHA3_384).1 = 0
    ∧ (mbedtls_sha3_starts ctx MBEDTLS_SHA3_512).1 = 0
    ∧ (mbedtls_sha3_starts ctx MBEDTLS_SHA3_SHAKE128).1 = 0
    ∧ (mbedtls_sha3_starts ctx MBEDTLS_SHA3_SHAKE256).1 = 0
    ∧ (mbedtls_sha3_starts ctx MBEDTLS_SHA3_CSHAKE128).1 = 0
    ∧ (mbedtls_sha3_starts ctx MBEDTLS_SHA3_CSHAKE256).1 = 0
    ∧ (mbedtls_sha3_starts ctx MBEDTLS_SHA3_CSHAKE128).2.xor_byte = 0x1F
    ∧ (mbedtls_sha3_starts ctx MBEDTLS_SHA3_CSHAKE256).2.xor_byte = 0x1F
    ∧ (mbedtls_sha3_starts ctx MBEDTLS_SHA3_CSHAKE128).2
        = { (mbedtls_sha3_starts ctx MBEDTLS_SHA3_SHAKE128).2
            with id := MBEDTLS_SHA3_CSHAKE128 }
    ∧ (mbedtls_sha3_starts ctx MBEDTLS_SHA3_CSHAKE256).2
        = { (mbedtls_sha3_starts ctx MBEDTLS_SHA3_SHAKE256).2
            with id := MBEDTLS_SHA3_CSHAKE256 }
    ∧ mbedtls_sha3 MBEDTLS_SHA3_CSHAKE128 m olen
        = mbedtls_sha3 MBEDTLS_SHA3_SHAKE128 m olen
    ∧ mbedtls_sha3 MBEDTLS_SHA3_CSHAKE256 m olen
        = mbedtls_sha3 MBEDTLS_SHA3_SHAKE256 m olen :=
  ⟨mbedtls_sha3_starts_err ctx id (sha3_get_family_none_of_unrecognized id hbad),
   rfl, rfl, rfl, rfl, rfl, rfl, rfl, rfl, rfl, rfl, rfl, rfl, rfl,
   cshake_oneshot_as_shake128 m olen, cshake_oneshot_as_shake256 m olen⟩

theorem mbedtls_sha3_starts_id_validation_witness :
    mbedtls_sha3_starts mbedtls_sha3_init 9
        = (MBEDTLS_ERR_SHA3_BAD_INPUT_DATA, mbedtls_sha3_init)
    ∧ (mbedtls_sha3_starts mbedtls_sha3_init MBEDTLS_SHA3_NONE).1
        = MBEDTLS_ERR_SHA3_BAD_INPUT_DATA
    ∧ (mbedtls_sha3_starts mbedtls_sha3_init MBEDTLS_SHA3_224).1 = 0
    ∧ (mbedtls_sha3_starts mbedtls_sha3_init MBEDTLS_SHA3_256).1 = 0
    ∧ (mbedtls_sha3_starts mbedtls_sha3_init MBEDTLS_SHA3_384).1 = 0
    ∧ (mbedtls_sha3_starts mbedtls_sha3_init MBEDTLS_SHA3_512).1 = 0
    ∧ (mbedtls_sha3_starts mbedtls_sha3_init MBEDTLS_SHA3_SHAKE128).1 = 0
    ∧ (mbedtls_sha3_starts mbedtls_sha3_init MBEDTLS_SHA3_SHAKE256).1 = 0
    ∧ (mbedtls_sha3_starts mbedtls_sha3_init MBEDTLS_SHA3_CSHAKE128).1 = 0
    ∧ (mbedtls_sha3_starts mbedtls_sha3_init MBEDTLS_SHA3_CSHAKE256).1 = 0
    ∧ (mbedtls_sha3_starts mbedtls_sha3_init MBEDTLS_SHA3_CSHAKE128).2.xor_byte = 0x1F
    ∧ (mbedtls_sha3_starts mbedtls_sha3_init MBEDTLS_SHA3_CSHAKE256).2.xor_byte = 0x1F
    ∧ (mbedtls_sha3_starts mbedtls_sha3_init MBEDTLS_SHA3_CSHAKE128).2
        = { (mbedtls_sha3_starts mbedtls_sha3_init MBEDTLS_SHA3_SHAKE128).2
            with id := MBEDTLS_SHA3_CSHAKE128 }
    ∧ (mbedtls_sha3_starts mbedtls_sha3_init MBEDTLS_SHA3_CSHAKE256).2
        = { (mbedtls_sha3_starts mbedtls_sha3_init MBEDTLS_SHA3_SHAKE256).2
            with id := MBEDTLS_SHA3_CSHAKE256 }
    ∧ mbedtls_sha3 MBEDTLS_SHA3_CSHAKE128 [] 0 = mbedtls_sha3 MBEDTLS_SHA3_SHAKE128 [] 0
    ∧ mbedtls_sha3 MBEDTLS_SHA3_CSHAKE256 [] 0 = mbedtls_sha3 MBEDTLS_SHA3_SHAKE256 [] 0 :=
  mbedtls_sha3_starts_id_validation mbedtls_sha3_init 9 [] 0 (by decide)

set_option maxRecDepth 100000 in
/-- C7: known-answer correctness — the one-shot `mbedtls_sha3` with
id SHA3-256, empty input and `olen = 32` succeeds and writes exactly the
FIPS 202 digest `a7ffc6f8 bf1ed766 51c14756 a061d662 f580ff4d e43b49fa
82d80a4b 80f8434a`, and it returns exactly the status and bytes of the
streaming starts/update/finish sequence. -/
theorem mbedtls_sha3_256_empty_vector :
    mbedtls_sha3 MBEDTLS_SHA3_256 [] 32
      = (0, [0xa7, 0xff, 0xc6, 0xf8, 0xbf, 0x1e, 0xd7, 0x66,
             0x51, 0xc1, 0x47, 0x56, 0xa0, 0x61, 0xd6, 0x62,
             0xf5, 0x80, 0xff, 0x4d, 0xe4, 0x3b, 0x49, 0xfa,
             0x82, 0xd8, 0x0a, 0x4b, 0x80, 0xf8, 0x43, 0x4a])
    ∧ (mbedtls_sha3_finish (startedWith MBEDTLS_SHA3_256 []) 32).1 = 0
    ∧ mbedtls_sha3 MBEDTLS_SHA3_256 [] 32
        = ((mbedtls_sha3_finish (startedWith MBEDTLS_SHA3_256 []) 32).1,
           (mbedtls_sha3_finish (startedWith MBEDTLS_SHA3_256 []) 32).2.2) := by
  refine ⟨by decide, ?_, mbedtls_sha3_eq_pipeline MBEDTLS_SHA3_256 [] 32 rfl (by decide)⟩
  exact (mbedtls_sha3_finish_ok_iff _ _).mpr ⟨by decide, Or.inr (by decide)⟩

/-- C8 (counterexample): the claim quantifies over init as well, but after
`mbedtls_sha3_init` the context has `index = 0` and `rate_bytes = 0`, so
`index < rate_bytes` fails and `rate_bytes` is not a positive multiple
of 8. -/
theorem sha3_index_invariant_cex :
    mbedtls_sha3_init.r = 0 ∧ ¬ sha3_ctx_inv mbedtls_sha3_init := by
  decide

/-- C8 (amended, init excluded): after a successful starts or
starts_cshake, and after update on or clone of a context satisfying the
invariant, `index < rate_bytes` holds and `rate_bytes` is a positive
multiple of 8 with `rate_bytes ≤ 168`; update advances `index` to
`(index + length) % rate_bytes`, and absorbing exactly `rate_bytes` bytes
from a block boundary applies Keccak-f[1600] and resets `index` to 0. -/
theorem sha3_index_invariant (ctx : mbedtls_sha3_context) (id cid : Nat)
    (name custom m m2 : List Nat) (c c2 : mbedtls_sha3_context)
    (hs : (mbedtls_sha3_starts ctx id).1 = 0)
    (hcs : (mbedtls_sha3_starts_cshake ctx cid name custom).1 = 0)
    (hc : sha3_ctx_inv c) (hc2 : sha3_ctx_inv c2)
    (hi2 : c2.index = 0) (hlen2 : m2.length = c2.r) :
    sha3_ctx_inv (mbedtls_sha3_starts ctx id).2
    ∧ sha3_ctx_inv (mbedtls_sha3_starts_cshake ctx cid name custom).2
    ∧ sha3_ctx_inv (mbedtls_sha3_update c m).2
    ∧ sha3_ctx_inv (mbedtls_sha3_clone c)
    ∧ (mbedtls_sha3_update c m).2.index = (c.index + m.length) % c.r
    ∧ (mbedtls_sha3_update c2 m2).2.index = 0
    ∧ (∃ s, (mbedtls_sha3_update c2 m2).2.state = keccak_f1600 s) := by
  have hr0 : c.r ≠ 0 := by
    have := hc.2.1
    omega
  have hr02 : c2.r ≠ 0 := by
    have := hc2.2.1
    omega
  refine ⟨?_, ?_, ?_, hc, ?_, ?_, ?_⟩
  · cases h : sha3_get_family id with
    | none =>
      rw [mbedtls_sha3_starts_err _ _ h] at hs
      norm_num [MBEDTLS_ERR_SHA3_BAD_INPUT_DATA] at hs
    | some p =>
      rw [mbedtls_sha3_starts_ok _ _ _ h]
      exact sha3_families_inv p (sha3_get_family_mem _ _ h) id
  · by_cases h78 : cid = MBEDTLS_SHA3_CSHAKE128 ∨ cid = MBEDTLS_SHA3_CSHAKE256
    · rcases h78 with h7 | h7 <;> subst h7
      · rw [starts_cshake_cshake128_eq]
        by_cases hne : name.length = 0 ∧ custom.length = 0
        · rw [if_pos hne]
          decide
        · rw [if_neg hne]
          exact sha3_ctx_inv_absorbBytes _ _ (by decide)
      · rw [starts_cshake_cshake256_eq]
        by_cases hne : name.length = 0 ∧ custom.length = 0
        · rw [if_pos hne]
          decide
        · rw [if_neg hne]
          exact sha3_ctx_inv_absorbBytes _ _ (by decide)
    · exfalso
      unfold mbedtls_sha3_starts_cshake at hcs
      rw [if_pos h78] at hcs
      norm_num [MBEDTLS_ERR_SHA3_BAD_INPUT_DATA] at hcs
  · rw [mbedtls_sha3_update_of_started c m hr0]
    exact sha3_ctx_inv_absorbBytes c m hc
  · rw [mbedtls_sha3_update_of_started c m hr0]
    exact absorbBytes_index c m hc.1
  · rw [mbedtls_sha3_update_of_started c2 m2 hr02]
    show (absorbBytes c2 m2).index = 0
    rw [absorbBytes_index c2 m2 hc2.1, hi2, hlen2]
    simp
  · rw [mbedtls_sha3_update_of_started c2 m2 hr02]
    have hne2 : m2 ≠ [] := by
      intro hnil
      rw [hnil] at hlen2
      simp at hlen2
      omega
    have hdvd2 : c2.r ∣ c2.index + m2.length := by
      rw [hi2, hlen2]
      simp
    exact absorbBytes_ends_permuted c2 m2 hc2.1 hne2 hdvd2

set_option maxRecDepth 100000 in
theorem sha3_index_invariant_witness :
    sha3_ctx_inv (mbedtls_sha3_starts mbedtls_sha3_init 2).2
    ∧ sha3_ctx_inv (mbedtls_sha3_starts_cshake mbedtls_sha3_init 7 [] []).2
    ∧ sha3_ctx_inv (mbedtls_sha3_update (startedWith 2 []) [1]).2
    ∧ sha3_ctx_inv (mbedtls_sha3_clone (startedWith 2 []))
    ∧ (mbedtls_sha3_update (startedWith 2 []) [1]).2.index
        = ((startedWith 2 []).index + [1].length) % (startedWith 2 []).r
    ∧ (mbedtls_sha3_update (startedWith 5 []) (List.replicate 168 0)).2.index = 0
    ∧ (∃ s, (mbedtls_sha3_update (startedWith 5 []) (List.replicate 168 0)).2.state
        = keccak_f1600 s) :=
  sha3_index_invariant mbedtls_sha3_init 2 7 [] [] [1] (List.replicate 168 0)
    (startedWith 2 []) (startedWith 5 []) rfl rfl (by decide) (by decide)
    (by decide) (by decide)
